import Mathlib

/-!
Verification development for the bread-strava data-access layer
(`src/services/firebase.ts`): a shallow embedding of the Firestore-backed
store (collections `users`, `posts`, `comments`, `likes`) and of the
exported operations, with theorems about the social-graph, like/comment
counter, and recipe-connection logic.

Conventions of the embedding:
* a document field that may be absent from the stored document is an
  `Option`; an explicit `null` stored in a field is distinguished from an
  absent field where it matters (`PhotoVal`);
* numeric counters are `Int` (the backend stores numbers and its
  `increment` primitive can drive them negative);
* server timestamps are `Nat` parameters (`now`) supplied by the caller;
* a batched write (`db.batch()`) applies all of its operations in order
  or fails as a whole; `batch.update` on a missing document makes the
  whole batch fail, so operations built on such a batch return
  `Option Store` (`none` models the thrown error, store unchanged);
* `collection.add` and keyed `doc().set` writes always succeed; `add`
  generates a fresh document id (freshness appears as a hypothesis where
  it matters).
-/

/-- Value stored in the `userPhotoURL` field of a comment document:
either an explicit `null` or a string. `Option PhotoVal` then models
presence of the field itself (`none` = field omitted from the document). -/
inductive PhotoVal where
  | nullv
  | strv (s : String)
deriving DecidableEq

/-- Document in the `users` collection. `registerUser` writes only
`id`/`username`/`email`/`createdAt`; `following`/`followers`/`savedPosts`
are absent (`none`) until some write creates them. -/
structure UserDoc where
  id : String
  username : String
  email : String
  photoURL : Option String
  bio : Option String
  following : Option (List String)
  followers : Option (List String)
  savedPosts : Option (List String)
  createdAt : Nat
deriving DecidableEq

/-- Document in the `posts` collection (fields of `BreadPost` relevant to
the data-access logic; presentation-only metadata such as difficulty and
ingredients is elided as it never feeds back into any operation). -/
structure PostDoc where
  userId : String
  username : String
  title : String
  description : String
  photoURL : Option String
  photoURLs : Option (List String)
  likes : Option Int
  comments : Option Int
  createdAt : Nat
  originalRecipeId : Option String
  isOriginalRecipe : Option Bool
  connectedPosts : Option (List String)
deriving DecidableEq

/-- Document in the `comments` collection. -/
structure CommentDoc where
  postId : String
  userId : String
  username : String
  userPhotoURL : Option PhotoVal
  text : String
  createdAt : Nat
deriving DecidableEq

/-- Document in the `likes` collection, keyed by `postId ++ "_" ++ userId`. -/
structure LikeDoc where
  postId : String
  userId : String
  createdAt : Nat
deriving DecidableEq

/-- The remote document store. `users` and `posts` are keyed maps;
`comments` and `likes` are kept as association lists `(docId, doc)` so
that creation order (comments) and per-key record counts (likes) are
observable. -/
structure Store where
  users : String → Option UserDoc
  posts : String → Option PostDoc
  comments : List (String × CommentDoc)
  likes : List (String × LikeDoc)

def emptyStore : Store :=
  { users := fun _ => none
    posts := fun _ => none
    comments := []
    likes := [] }

/-- Keyed `doc(k).set(v)`: create or overwrite the document at `k`. -/
def setFn {α : Type} (m : String → Option α) (k : String) (v : α) :
    String → Option α :=
  fun q => if q = k then some v else m q

/-- Keyed `doc(k).update(...)`: rewrite the document at `k` (the caller
must separately ensure it exists, since `update` on a missing document
fails). -/
def updateFn {α : Type} (m : String → Option α) (k : String) (f : α → α) :
    String → Option α :=
  fun q => if q = k then (m k).map f else m q

/-- Semantics of `FieldValue.arrayUnion x` applied to an (optional) array field:
elements already present are kept once, a new element is appended; a
missing or non-array field becomes `[x]`. -/
def arrayUnion (field : Option (List String)) (x : String) : List String :=
  let l := field.getD []
  if x ∈ l then l else l ++ [x]

/-- Semantics of `FieldValue.arrayRemove x`: removes all instances of `x`; a missing
field becomes the empty array. -/
def arrayRemove (field : Option (List String)) (x : String) : List String :=
  (field.getD []).filter (fun y => y != x)

/-- Key of the like-edge document for `(postId, userId)`. -/
def likeKey (postId userId : String) : String :=
  postId ++ "_" ++ userId

/-- Keyed `doc(k).set(d)` on the `likes` association list: any existing record
at the key is replaced by the new one. -/
def setLike (l : List (String × LikeDoc)) (k : String) (d : LikeDoc) :
    List (String × LikeDoc) :=
  l.filter (fun kd => kd.1 != k) ++ [(k, d)]

/-- Keyed `doc(k).delete()` on the `likes` association list (succeeds whether
or not the document exists). -/
def delLike (l : List (String × LikeDoc)) (k : String) :
    List (String × LikeDoc) :=
  l.filter (fun kd => kd.1 != k)

/-- Keyed `doc(k).get()` on the `likes` association list. -/
def lookupLike (l : List (String × LikeDoc)) (k : String) : Option LikeDoc :=
  (l.find? (fun kd => kd.1 == k)).map (·.2)

/-- Number of like-edge documents whose `postId` field is `pid`. -/
def edgeCount (s : Store) (pid : String) : Nat :=
  s.likes.countP (fun kd => kd.2.postId == pid)

/-! ### Auth / user-profile operations -/

/-- Operation `registerUser`: after creating the auth account, writes the user
document keyed by the new uid with exactly the fields
`{ id, username, email, createdAt: serverTimestamp }` — no
`following`/`followers`/`savedPosts` fields (and no photoURL/bio). -/
def registerUser (s : Store) (uid username email : String) (now : Nat) :
    Store :=
  { s with
    users := setFn s.users uid
      { id := uid
        username := username
        email := email
        photoURL := none
        bio := none
        following := none
        followers := none
        savedPosts := none
        createdAt := now } }

/-- Operation `createUserProfile` (used by the login missing-profile fallback):
writes the user document with explicit empty
`following`/`followers`/`savedPosts` arrays. -/
def createUserProfile (s : Store) (uid username email : String) (now : Nat) :
    Store :=
  { s with
    users := setFn s.users uid
      { id := uid
        username := username
        email := email
        photoURL := none
        bio := none
        following := some []
        followers := some []
        savedPosts := some []
        createdAt := now } }

/-- Client-side view of a user as returned by `getUserProfile`, which
defaults missing `following`/`followers`/`savedPosts` to `[]` on read. -/
structure UserView where
  id : String
  username : String
  email : String
  following : List String
  followers : List String
  savedPosts : List String
  createdAt : Nat
deriving DecidableEq

/-- Operation `getUserProfile`: reads the user document and normalizes the three
optional array fields to empty arrays. -/
def getUserProfile (s : Store) (uid : String) : Option UserView :=
  (s.users uid).map fun d =>
    { id := d.id
      username := d.username
      email := d.email
      following := d.following.getD []
      followers := d.followers.getD []
      savedPosts := d.savedPosts.getD []
      createdAt := d.createdAt }

/-! ### Follow graph -/

/-- Operation `followUser(currentUserId, targetUserId)`: one batch holding
`update(users/current, following: arrayUnion(target))` then
`update(users/target, followers: arrayUnion(current))`. The batch fails
as a whole if either document is missing; otherwise the two updates
apply in order. -/
def followUser (s : Store) (currentUserId targetUserId : String) :
    Option Store :=
  match s.users currentUserId, s.users targetUserId with
  | some _, some _ =>
      let m1 := updateFn s.users currentUserId fun u =>
        { u with following := some (arrayUnion u.following targetUserId) }
      let m2 := updateFn m1 targetUserId fun u =>
        { u with followers := some (arrayUnion u.followers currentUserId) }
      some { s with users := m2 }
  | _, _ => none

/-- Operation `unfollowUser(currentUserId, targetUserId)`: the symmetric batch with
`arrayRemove` on both sides. -/
def unfollowUser (s : Store) (currentUserId targetUserId : String) :
    Option Store :=
  match s.users currentUserId, s.users targetUserId with
  | some _, some _ =>
      let m1 := updateFn s.users currentUserId fun u =>
        { u with following := some (arrayRemove u.following targetUserId) }
      let m2 := updateFn m1 targetUserId fun u =>
        { u with followers := some (arrayRemove u.followers currentUserId) }
      some { s with users := m2 }
  | _, _ => none

/-! ### Post creation -/

/-- Caller-supplied post fields (the `post` argument of `createPost`,
before the upload results and counters are merged in). -/
structure PostMeta where
  userId : String
  username : String
  title : String
  description : String
deriving DecidableEq

/-- Post document written by `createPost` on success: caller fields plus
`photoURL` = first uploaded URL (the field is dropped by the
undefined-stripping step when there are no images), `photoURLs` = full
ordered list, `likes = 0`, `comments = 0`, server timestamp. -/
def writePost (meta : PostMeta) (urls : List String) (now : Nat) : PostDoc :=
  { userId := meta.userId
    username := meta.username
    title := meta.title
    description := meta.description
    photoURL := urls.head?
    photoURLs := some urls
    likes := some 0
    comments := some 0
    createdAt := now
    originalRecipeId := none
    isOriginalRecipe := none
    connectedPosts := none }

/-- Outcome of uploading one image to blob storage (a collected download
URL, or a failure — including the timeout rejection). -/
inductive UploadResult where
  | ok (url : String)
  | err
deriving DecidableEq

/-- Prefix test on strings, modelling `String.startsWith` of the source
(stated over the character lists so that it evaluates by `decide`). -/
def strStartsWith (s p : String) : Bool :=
  p.toList.isPrefixOf s.toList

/-- Whether `createPost` wraps the upload of a given image in the
60-second `Promise.race` timeout. In the source, the `timeoutPromise` is
built only inside the `image.startsWith('file://')` branch; the
`data:`-URL branch and the bare-base64 branch call `putString` directly
with no timeout. -/
def uploadHasTimeout (image : String) : Bool :=
  if strStartsWith image "file://" then true
  else if strStartsWith image "data:" then false
  else false

/-- The sequential upload loop of `createPost`: collects download URLs in
order and aborts at the first failed upload, propagating the error. -/
def uploadAll : List UploadResult → Except Unit (List String)
  | [] => .ok []
  | .ok url :: rest => (uploadAll rest).map (url :: ·)
  | .err :: _ => .error ()

/-- Operation `createPost`: uploads every image first; only if all uploads succeed
is the post document written (`collection('posts').add`). Any upload
failure (including a timeout) propagates and nothing is written. -/
def createPost (s : Store) (pid : String) (meta : PostMeta)
    (uploads : List UploadResult) (now : Nat) : Except Unit Store :=
  match uploadAll uploads with
  | .error e => .error e
  | .ok urls => .ok { s with posts := setFn s.posts pid (writePost meta urls now) }

/-! ### Likes -/

/-- Operation `likePost(postId, userId)`: one batch holding
`update(posts/postId, likes: increment(1))` and
`set(likes/postId_userId, { postId, userId, createdAt })`. The batch
fails as a whole if the post document is missing. `increment` on a
missing `likes` field treats it as `0`. -/
def likePost (s : Store) (postId userId : String) (now : Nat) :
    Option Store :=
  match s.posts postId with
  | none => none
  | some d =>
      some { s with
        posts := setFn s.posts postId { d with likes := some (d.likes.getD 0 + 1) }
        likes := setLike s.likes (likeKey postId userId)
          { postId := postId, userId := userId, createdAt := now } }

/-- Operation `unlikePost(postId, userId)`: one batch holding
`update(posts/postId, likes: increment(-1))` and
`delete(likes/postId_userId)`. The decrement is unconditional — nothing
checks that the like-edge exists. -/
def unlikePost (s : Store) (postId userId : String) : Option Store :=
  match s.posts postId with
  | none => none
  | some d =>
      some { s with
        posts := setFn s.posts postId { d with likes := some (d.likes.getD 0 - 1) }
        likes := delLike s.likes (likeKey postId userId) }

/-- Operation `checkIfUserLikedPost`: existence check on the like-edge key. -/
def checkIfUserLikedPost (s : Store) (postId userId : String) : Bool :=
  (lookupLike s.likes (likeKey postId userId)).isSome

/-! ### Comments -/

/-- Operation `addComment`: writes the comment document (an absent `userPhotoURL`
input is normalized to an explicit `null` by `userPhotoURL || null`, so
the stored field is always present), then re-reads the post and, only if
it exists, writes its `comments` counter as `(current or 0) + 1`; a
missing post is logged and skipped. Returns the created comment either
way. Both the server timestamp of the document and the client timestamp
of the returned object are modelled by `now`. -/
def addComment (s : Store) (commentId postId userId username : String)
    (userPhotoURL : Option String) (text : String) (now : Nat) :
    Store × (String × CommentDoc) :=
  let doc : CommentDoc :=
    { postId := postId
      userId := userId
      username := username
      userPhotoURL := some (match userPhotoURL with
        | none => PhotoVal.nullv
        | some p => PhotoVal.strv p)
      text := text
      createdAt := now }
  let s1 : Store := { s with comments := s.comments ++ [(commentId, doc)] }
  let s2 : Store :=
    match s1.posts postId with
    | some pd =>
        let pd2 := { pd with comments := some (pd.comments.getD 0 + 1) }
        { s1 with posts := setFn s1.posts postId pd2 }
    | none => s1
  (s2, (commentId, doc))

/-- Client-side `Comment` object produced by `getCommentsForPost`:
document id plus document data with `createdAt` converted to millis. -/
structure CommentView where
  id : String
  postId : String
  userId : String
  username : String
  userPhotoURL : Option PhotoVal
  text : String
  createdAt : Nat
deriving DecidableEq

/-- Mapping applied to each returned comment document. -/
def toCommentView (kd : String × CommentDoc) : CommentView :=
  { id := kd.1
    postId := kd.2.postId
    userId := kd.2.userId
    username := kd.2.username
    userPhotoURL := kd.2.userPhotoURL
    text := kd.2.text
    createdAt := kd.2.createdAt }

/-- The client-side sort `comments.sort((a, b) => b.createdAt - a.createdAt)`:
a stable sort placing larger `createdAt` first. -/
def sortCommentsDesc (l : List CommentView) : List CommentView :=
  l.insertionSort (fun a b => b.createdAt ≤ a.createdAt)

/-- Processing `getCommentsForPost` applies to the query snapshot it
received. This tail is identical in the ordered-query path and in the
unordered fallback path: map every document to a client `Comment`, then
run the client-side sort (the sort is applied unconditionally, after the
try/catch). The two paths differ only in the order in which the backend
delivered `docs`. -/
def processCommentDocs (docs : List (String × CommentDoc)) : List CommentView :=
  sortCommentsDesc (docs.map toCommentView)

/-- The property claimed of `getCommentsForPost`: for one and the same
set of stored comments, the ordered path (backend delivers the documents
already sorted by `createdAt` descending) and the fallback path (backend
delivers them in an arbitrary order) produce the same final list. -/
def orderedFallbackAgree : Prop :=
  ∀ (docs₁ docs₂ : List (String × CommentDoc)),
    docs₁.Perm docs₂ →
    docs₁.Pairwise (fun a b => b.2.createdAt ≤ a.2.createdAt) →
    processCommentDocs docs₁ = processCommentDocs docs₂

/-! ### Recipe connections -/

/-- Operation `connectPostToRecipe(originalRecipeId, newPostId)`: reads the
original post; one batch holding (only if the original exists)
`update(posts/original, connectedPosts: current ++ [newPostId])` and,
always, `update(posts/newPostId, { originalRecipeId, isOriginalRecipe: false })`.
The batch fails as a whole if the new post document is missing; a missing
original is silently skipped. -/
def connectPostToRecipe (s : Store) (originalRecipeId newPostId : String) :
    Option Store :=
  match s.posts newPostId with
  | none => none
  | some _ =>
      let m1 :=
        match s.posts originalRecipeId with
        | some od =>
            setFn s.posts originalRecipeId
              { od with connectedPosts := some (od.connectedPosts.getD [] ++ [newPostId]) }
        | none => s.posts
      let m2 := updateFn m1 newPostId fun d =>
        { d with originalRecipeId := some originalRecipeId
                 isOriginalRecipe := some false }
      some { s with posts := m2 }

/-- Post object returned by `getPostById`: document id plus data. -/
structure RetrievedPost where
  id : String
  doc : PostDoc
deriving DecidableEq

/-- Operation `getPostById`: `null` for a missing document, otherwise id plus data. -/
def getPostById (s : Store) (postId : String) : Option RetrievedPost :=
  (s.posts postId).map fun d => { id := postId, doc := d }

/-- Operation `getConnectedPosts(originalRecipeId)`: throws if the original is
missing; otherwise resolves every id in its `connectedPosts`, drops the
ones that fail to resolve, and returns the original first. -/
def getConnectedPosts (s : Store) (originalRecipeId : String) :
    Option (List RetrievedPost) :=
  match getPostById s originalRecipeId with
  | none => none
  | some orig =>
      let ids := orig.doc.connectedPosts.getD []
      some (orig :: ids.filterMap (fun pid => getPostById s pid))

/-! ### Operation sequences and reachability -/

/-- One exported mutating operation, for reasoning about operation
sequences (claim C4). -/
inductive Op where
  | create (postId : String) (meta : PostMeta) (urls : List String) (now : Nat)
  | like (postId userId : String) (now : Nat)
  | unlike (postId userId : String)
  | comment (commentId postId userId username : String)
      (photo : Option String) (text : String) (now : Nat)

/-- Total semantics of one operation: a failed batch (thrown error)
leaves the store unchanged; `create` models a successful `createPost`
(all uploads done) writing the fresh document. -/
def applyOp (s : Store) : Op → Store
  | .create pid meta urls now =>
      { s with posts := setFn s.posts pid (writePost meta urls now) }
  | .like p u now => (likePost s p u now).getD s
  | .unlike p u => (unlikePost s p u).getD s
  | .comment cid pid uid un ph tx now =>
      (addComment s cid pid uid un ph tx now).1

/-- Store produced by running a sequence of operations from the empty
store. -/
def applyOps (ops : List Op) : Store :=
  ops.foldl applyOp emptyStore

/-- The claimed counter invariant: every existing post has non-negative
`likes` and `comments` counters (a missing counter field reads as 0). -/
def countersNonNeg (s : Store) : Prop :=
  ∀ pid d, s.posts pid = some d →
    0 ≤ d.likes.getD 0 ∧ 0 ≤ d.comments.getD 0

/-- Guarded reachability: the operation sequences in which `create` uses
a fresh document id (as `collection.add` guarantees: no existing post and
no stale like-edge referencing the id) and every `unlike` is performed
only while the like-edge at its key exists and really records this post
(which `checkIfUserLikedPost` establishes whenever ids contain no
underscore, making edge keys unambiguous). `like` and `comment` are
unrestricted. -/
inductive GReach : Store → Prop where
  | init : GReach emptyStore
  | create {s pid meta urls now} : GReach s →
      s.posts pid = none →
      (∀ kd ∈ s.likes, kd.2.postId ≠ pid) →
      GReach (applyOp s (.create pid meta urls now))
  | like {s p u now} : GReach s →
      GReach (applyOp s (.like p u now))
  | unlike {s p u} : GReach s →
      (∃ d, lookupLike s.likes (likeKey p u) = some d ∧ d.postId = p) →
      GReach (applyOp s (.unlike p u))
  | comment {s cid pid uid un ph tx now} : GReach s →
      GReach (applyOp s (.comment cid pid uid un ph tx now))

/-! ### Helper lemmas about the likes association list -/

lemma find?_append_none {α : Type} (l₁ l₂ : List α) (p : α → Bool)
    (h : l₁.find? p = none) : (l₁ ++ l₂).find? p = l₂.find? p := by
  induction l₁ with
  | nil => rfl
  | cons x xs ih =>
      cases hpx : p x with
      | true => simp [List.find?_cons, hpx] at h
      | false =>
          simp only [List.find?_cons, hpx] at h
          simpa [List.find?_cons, hpx] using ih h

lemma find?_key_filter_ne (l : List (String × LikeDoc)) (k : String) :
    (l.filter (fun kd => kd.1 != k)).find? (fun kd => kd.1 == k) = none := by
  rw [List.find?_eq_none]
  intro x hx
  have hne := (List.mem_filter.mp hx).2
  simp only [bne_iff_ne, ne_eq] at hne
  simp [hne]

lemma lookupLike_delLike_self (l : List (String × LikeDoc)) (k : String) :
    lookupLike (delLike l k) k = none := by
  unfold lookupLike delLike
  rw [find?_key_filter_ne]
  rfl

lemma lookupLike_setLike_self (l : List (String × LikeDoc)) (k : String)
    (d : LikeDoc) : lookupLike (setLike l k d) k = some d := by
  unfold lookupLike setLike
  rw [find?_append_none _ _ _ (find?_key_filter_ne l k)]
  simp [List.find?_cons]

lemma countP_key_setLike (l : List (String × LikeDoc)) (k : String)
    (d : LikeDoc) :
    (setLike l k d).countP (fun kd => kd.1 == k) = 1 := by
  unfold setLike
  rw [List.countP_append]
  have h0 : (l.filter (fun kd => kd.1 != k)).countP (fun kd => kd.1 == k) = 0 := by
    rw [List.countP_eq_zero]
    intro x hx
    have hne := (List.mem_filter.mp hx).2
    simp only [bne_iff_ne, ne_eq] at hne
    simp [hne]
  rw [h0]
  simp [List.countP_cons]

/-! ### C2: like, check, unlike -/

/-- C2: for a post `p` that exists and a user `u`, `likePost(p,u)` succeeds,
after it `checkIfUserLikedPost(p,u)` returns `true` and the post's `likes`
value is exactly one more than before; the subsequent `unlikePost(p,u)`
succeeds, restores the previous `likes` value and removes the edge. -/
theorem like_check_unlike_spec (s : Store) (p u : String) (t : Nat)
    (d : PostDoc) (hd : s.posts p = some d) :
    ∃ s₁, likePost s p u t = some s₁ ∧
      checkIfUserLikedPost s₁ p u = true ∧
      (s₁.posts p).map (fun d1 => d1.likes.getD 0) = some (d.likes.getD 0 + 1) ∧
      ∃ s₂, unlikePost s₁ p u = some s₂ ∧
        (s₂.posts p).map (fun d2 => d2.likes.getD 0) = some (d.likes.getD 0) ∧
        checkIfUserLikedPost s₂ p u = false := by
  refine ⟨_, by rw [likePost, hd], ?_, ?_, ?_⟩
  · simp [checkIfUserLikedPost, lookupLike_setLike_self]
  · simp [setFn]
  · refine ⟨_, by rw [unlikePost]; simp only [setFn, if_pos rfl]; rfl, ?_, ?_⟩
    · simp [setFn]
    · simp [checkIfUserLikedPost, unlikePost, setFn, lookupLike_delLike_self]

/-- C2 witness store: one post document at id `P`. -/
def samplePostDoc : PostDoc :=
  { userId := "u"
    username := "un"
    title := "t"
    description := ""
    photoURL := none
    photoURLs := none
    likes := some 3
    comments := some 2
    createdAt := 0
    originalRecipeId := none
    isOriginalRecipe := none
    connectedPosts := none }

def onePostStore : Store :=
  { emptyStore with posts := setFn emptyStore.posts "P" samplePostDoc }

theorem like_check_unlike_spec_witness :
    ∃ s₁, likePost onePostStore "P" "U" 9 = some s₁ ∧
      checkIfUserLikedPost s₁ "P" "U" = true ∧
      (s₁.posts "P").map (fun d1 => d1.likes.getD 0) =
        some (samplePostDoc.likes.getD 0 + 1) ∧
      ∃ s₂, unlikePost s₁ "P" "U" = some s₂ ∧
        (s₂.posts "P").map (fun d2 => d2.likes.getD 0) =
          some (samplePostDoc.likes.getD 0) ∧
        checkIfUserLikedPost s₂ "P" "U" = false :=
  like_check_unlike_spec onePostStore "P" "U" 9 samplePostDoc (by decide)

/-! ### C3: double like -/

/-- C3: two `likePost(p,u)` calls with no intervening unlike both succeed,
leave `likes` two above its original value, and yet the `likes` collection
holds exactly one record under the key `p_u` — the second `set` overwrote
the first. -/
theorem like_twice_double_counts (s : Store) (p u : String) (t₁ t₂ : Nat)
    (d : PostDoc) (hd : s.posts p = some d) :
    ∃ s₁ s₂, likePost s p u t₁ = some s₁ ∧ likePost s₁ p u t₂ = some s₂ ∧
      (s₂.posts p).map (fun d2 => d2.likes.getD 0) = some (d.likes.getD 0 + 2) ∧
      s₂.likes.countP (fun kd => kd.1 == likeKey p u) = 1 := by
  refine ⟨_, _, by rw [likePost, hd],
    by rw [likePost]; simp only [setFn, if_pos rfl]; rfl, ?_, ?_⟩
  · simp [setFn]
    omega
  · simp [setFn, countP_key_setLike]

theorem like_twice_double_counts_witness :
    ∃ s₁ s₂, likePost onePostStore "P" "U" 4 = some s₁ ∧
      likePost s₁ "P" "U" 5 = some s₂ ∧
      (s₂.posts "P").map (fun d2 => d2.likes.getD 0) =
        some (samplePostDoc.likes.getD 0 + 2) ∧
      s₂.likes.countP (fun kd => kd.1 == likeKey "P" "U") = 1 :=
  like_twice_double_counts onePostStore "P" "U" 4 5 samplePostDoc (by decide)

/-! ### C9: addComment -/

/-- C9: `addComment` always appends the comment document — with an absent
photo URL stored as an explicit `null` (`some PhotoVal.nullv`, the field
is present) — and then sets the post's `comments` counter to
`(current or 0) + 1` exactly when the post document exists; when the post
is missing the call still returns the created comment and no post
document changes. -/
theorem addComment_spec (s : Store) (cid pid uid un : String)
    (photo : Option String) (tx : String) (now : Nat) :
    (addComment s cid pid uid un photo tx now).2 =
      (cid, { postId := pid, userId := uid, username := un,
              userPhotoURL := some (match photo with
                | none => PhotoVal.nullv
                | some pv => PhotoVal.strv pv),
              text := tx, createdAt := now }) ∧
    (addComment s cid pid uid un photo tx now).1.comments =
      s.comments ++ [(cid,
        { postId := pid, userId := uid, username := un,
          userPhotoURL := some (match photo with
            | none => PhotoVal.nullv
            | some pv => PhotoVal.strv pv),
          text := tx, createdAt := now })] ∧
    (addComment s cid pid uid un photo tx now).1.posts pid =
      (s.posts pid).map (fun d => { d with comments := some (d.comments.getD 0 + 1) }) ∧
    ∀ q, q ≠ pid → (addComment s cid pid uid un photo tx now).1.posts q = s.posts q := by
  unfold addComment
  cases hp : s.posts pid with
  | none =>
      refine ⟨rfl, ?_, ?_, ?_⟩
      · simp [hp]
      · simp [hp]
      · intro q hq
        simp [hp]
  | some pd =>
      refine ⟨rfl, ?_, ?_, ?_⟩
      · simp [hp]
      · simp [hp, setFn]
      · intro q hq
        simp [hp, setFn, hq]

theorem addComment_spec_witness :
    (addComment onePostStore "c1" "P" "U" "un" none "hi" 3).1.posts "Q" =
      onePostStore.posts "Q" ∧
    (addComment onePostStore "c1" "P" "U" "un" none "hi" 3).1.comments =
      onePostStore.comments ++ [("c1",
        { postId := "P", userId := "U", username := "un",
          userPhotoURL := some PhotoVal.nullv, text := "hi", createdAt := 3 })] :=
  ⟨(addComment_spec onePostStore "c1" "P" "U" "un" none "hi" 3).2.2.2 "Q" (by decide),
   (addComment_spec onePostStore "c1" "P" "U" "un" none "hi" 3).2.1⟩

/-! ### C10: connect with a missing original -/

/-- C10: when the original post document is missing but the new post
exists, `connectPostToRecipe` succeeds, still sets
`originalRecipeId`/`isOriginalRecipe = false` on the new post, and no
post's `connectedPosts` list changes — a dangling back-reference. -/
theorem connect_missing_original_spec (s : Store) (oid nid : String)
    (nd : PostDoc) (hoid : s.posts oid = none) (hnid : s.posts nid = some nd) :
    ∃ s₁, connectPostToRecipe s oid nid = some s₁ ∧
      s₁.posts nid = some { nd with originalRecipeId := some oid, isOriginalRecipe := some false } ∧
      ∀ q, (s₁.posts q).map (fun d => d.connectedPosts) =
        (s.posts q).map (fun d => d.connectedPosts) := by
  refine ⟨_, by rw [connectPostToRecipe, hnid, hoid], ?_, ?_⟩
  · simp [updateFn, hnid]
  · intro q
    by_cases hq : q = nid
    · subst hq
      simp [updateFn, hnid]
    · simp [updateFn, hq]

theorem connect_missing_original_spec_witness :
    ∃ s₁, connectPostToRecipe onePostStore "O" "P" = some s₁ ∧
      s₁.posts "P" = some { samplePostDoc with originalRecipeId := some "O", isOriginalRecipe := some false } ∧
      ∀ q, (s₁.posts q).map (fun d => d.connectedPosts) =
        (onePostStore.posts q).map (fun d => d.connectedPosts) :=
  connect_missing_original_spec onePostStore "O" "P" samplePostDoc (by decide) (by decide)

/-! ### C5: registration document shape -/

/-- C5 counterexample: the user document written by `registerUser` does
not contain empty `following`/`followers`/`savedPosts` arrays — those
fields are absent from it altogether. -/
theorem register_doc_lacks_empty_arrays :
    ¬ ∃ d, (registerUser emptyStore "u1" "alice" "alice@example.com" 7).users "u1" = some d ∧
        d.following = some [] ∧ d.followers = some [] ∧ d.savedPosts = some [] := by
  rintro ⟨d, hd, hf, -, -⟩
  have hr : (registerUser emptyStore "u1" "alice" "alice@example.com" 7).users "u1" =
      some { id := "u1", username := "alice", email := "alice@example.com",
             photoURL := none, bio := none, following := none, followers := none,
             savedPosts := none, createdAt := 7 } := by
    simp [registerUser, setFn]
  rw [hr] at hd
  injection hd with hd2
  rw [← hd2] at hf
  simp at hf

/-- C5 (amended): `registerUser` writes the user document with exactly
`id`/`username`/`email`/`createdAt` and no array fields; reading it back
through `getUserProfile` yields empty `following`/`followers`/`savedPosts`
(defaulted on read); the explicit empty arrays are written only by
`createUserProfile`, which the login missing-profile fallback uses. -/
theorem register_doc_shape (s : Store) (uid username email : String) (now : Nat) :
    ((registerUser s uid username email now).users uid =
      some { id := uid, username := username, email := email, photoURL := none,
             bio := none, following := none, followers := none, savedPosts := none,
             createdAt := now }) ∧
    getUserProfile (registerUser s uid username email now) uid =
      some { id := uid, username := username, email := email,
             following := [], followers := [], savedPosts := [], createdAt := now } ∧
    (createUserProfile s uid username email now).users uid =
      some { id := uid, username := username, email := email, photoURL := none,
             bio := none, following := some [], followers := some [],
             savedPosts := some [], createdAt := now } := by
  refine ⟨?_, ?_, ?_⟩ <;> simp [registerUser, createUserProfile, getUserProfile, setFn]

/-! ### C6: upload timeout and abort behaviour -/

/-- C6 counterexample: images supplied as a data-URL or as bare base64
are uploaded with no 60-second timeout; only the `file://` branch builds
the timeout race. -/
theorem upload_timeout_not_all_encodings :
    uploadHasTimeout "data:image/png;base64,iVBORw0KGgoAAA" = false ∧
    uploadHasTimeout "iVBORw0KGgoAAA" = false ∧
    uploadHasTimeout "file:///tmp/a.jpg" = true := by
  refine ⟨?_, ?_, ?_⟩ <;> decide

/-- C6 (amended): the 60-second upload timeout applies exactly to the
local-file-handle (`file://`) encoding, not to the data-URL or bare
base64 encodings; and any upload failure (timeout included) makes
`createPost` propagate the error with no post document written. -/
theorem upload_timeout_and_abort :
    (∀ img : String, uploadHasTimeout img = strStartsWith img "file://") ∧
    ∀ (s : Store) (pid : String) (meta : PostMeta) (uploads : List UploadResult)
      (now : Nat), UploadResult.err ∈ uploads →
      createPost s pid meta uploads now = .error () := by
  constructor
  · intro img
    unfold uploadHasTimeout
    cases h : strStartsWith img "file://" <;> simp [h]
  · intro s pid meta uploads now hmem
    have herr : uploadAll uploads = .error () := by
      induction uploads with
      | nil => cases hmem
      | cons x rest ih =>
          cases x with
          | err => rfl
          | ok url =>
              have hmem' : UploadResult.err ∈ rest := by
                rcases List.mem_cons.mp hmem with h | h
                · cases h
                · exact h
              simp [uploadAll, ih hmem', Except.map]
    simp [createPost, herr]

def sampleMeta : PostMeta :=
  { userId := "u", username := "un", title := "t", description := "" }

theorem upload_timeout_and_abort_witness :
    uploadHasTimeout "file:///tmp/a.jpg" = strStartsWith "file:///tmp/a.jpg" "file://" ∧
    createPost emptyStore "p" sampleMeta [UploadResult.ok "url0", UploadResult.err] 0 =
      .error () :=
  ⟨upload_timeout_and_abort.1 "file:///tmp/a.jpg",
   upload_timeout_and_abort.2 emptyStore "p" sampleMeta
     [UploadResult.ok "url0", UploadResult.err] 0 (by decide)⟩

/-! ### C1: follow then unfollow -/

/-- Spec-level read of `users[uid].following` (missing document or field
reads as the empty list). -/
def followingOf (s : Store) (uid : String) : List String :=
  ((s.users uid).map (fun u => u.following.getD [])).getD []

/-- Spec-level read of `users[uid].followers`. -/
def followersOf (s : Store) (uid : String) : List String :=
  ((s.users uid).map (fun u => u.followers.getD [])).getD []

lemma mem_arrayUnion_self (f : Option (List String)) (x : String) :
    x ∈ arrayUnion f x := by
  unfold arrayUnion
  by_cases h : x ∈ f.getD [] <;> simp [h]

lemma not_mem_arrayRemove_self (f : Option (List String)) (x : String) :
    x ∉ arrayRemove f x := by
  unfold arrayRemove
  intro h
  have := (List.mem_filter.mp h).2
  simp at this

/-- Store after the two batched updates of `followUser` (both documents
assumed present). -/
def followUpdate (s : Store) (A B : String) : Store :=
  let m1 := updateFn s.users A fun w => { w with following := some (arrayUnion w.following B) }
  let m2 := updateFn m1 B fun w => { w with followers := some (arrayUnion w.followers A) }
  { s with users := m2 }

/-- Store after the two batched updates of `unfollowUser`. -/
def unfollowUpdate (s : Store) (A B : String) : Store :=
  let m1 := updateFn s.users A fun w => { w with following := some (arrayRemove w.following B) }
  let m2 := updateFn m1 B fun w => { w with followers := some (arrayRemove w.followers A) }
  { s with users := m2 }

lemma followUser_eq_of_users (s : Store) (A B : String) (u v : UserDoc)
    (hA : s.users A = some u) (hB : s.users B = some v) :
    followUser s A B = some (followUpdate s A B) := by
  rw [followUser, hA, hB]
  rfl

lemma unfollowUser_eq_of_users (s : Store) (A B : String) (u v : UserDoc)
    (hA : s.users A = some u) (hB : s.users B = some v) :
    unfollowUser s A B = some (unfollowUpdate s A B) := by
  rw [unfollowUser, hA, hB]
  rfl

lemma updateFn_isSome {α : Type} (m : String → Option α) (k q : String)
    (f : α → α) : (updateFn m k f q).isSome = (m q).isSome := by
  unfold updateFn
  by_cases h : q = k
  · subst h
    simp
  · simp [h]

/-- C1: when both user documents exist, `followUser(A,B)` succeeds and
afterwards `B ∈ users[A].following` and `A ∈ users[B].followers`; the
subsequent `unfollowUser(A,B)` succeeds and afterwards neither membership
holds. -/
theorem follow_then_unfollow_spec (s : Store) (A B : String)
    (uA uB : UserDoc) (hA : s.users A = some uA) (hB : s.users B = some uB) :
    ∃ s₁, followUser s A B = some s₁ ∧
      B ∈ followingOf s₁ A ∧ A ∈ followersOf s₁ B ∧
      ∃ s₂, unfollowUser s₁ A B = some s₂ ∧
        B ∉ followingOf s₂ A ∧ A ∉ followersOf s₂ B := by
  refine ⟨_, followUser_eq_of_users s A B uA uB hA hB, ?_, ?_, ?_⟩
  · unfold followingOf followUpdate updateFn
    by_cases hAB : A = B
    · subst hAB
      simp [hA]
      exact mem_arrayUnion_self _ _
    · simp [hAB, hA]
      exact mem_arrayUnion_self _ _
  · unfold followersOf followUpdate updateFn
    by_cases hAB : A = B
    · subst hAB
      simp [hA]
      exact mem_arrayUnion_self _ _
    · have hBA : ¬ B = A := fun h2 => hAB h2.symm
      simp [hBA, hB]
      exact mem_arrayUnion_self _ _
  · have hA1 : ∃ u1, (followUpdate s A B).users A = some u1 := by
      rw [← Option.isSome_iff_exists]
      unfold followUpdate
      rw [updateFn_isSome, updateFn_isSome, hA]
      rfl
    have hB1 : ∃ v1, (followUpdate s A B).users B = some v1 := by
      rw [← Option.isSome_iff_exists]
      unfold followUpdate
      rw [updateFn_isSome, updateFn_isSome, hB]
      rfl
    obtain ⟨u1, hu1⟩ := hA1
    obtain ⟨v1, hv1⟩ := hB1
    refine ⟨_, unfollowUser_eq_of_users _ A B u1 v1 hu1 hv1, ?_, ?_⟩
    · unfold followingOf unfollowUpdate updateFn
      by_cases hAB : A = B
      · subst hAB
        simp [hu1]
        exact not_mem_arrayRemove_self _ _
      · simp [hAB, hu1]
        exact not_mem_arrayRemove_self _ _
    · unfold followersOf unfollowUpdate updateFn
      by_cases hAB : A = B
      · subst hAB
        simp [hu1]
        exact not_mem_arrayRemove_self _ _
      · have hBA : ¬ B = A := fun h2 => hAB h2.symm
        simp [hBA, hv1]
        exact not_mem_arrayRemove_self _ _

def sampleUserDoc (uid : String) : UserDoc :=
  { id := uid
    username := uid
    email := uid
    photoURL := none
    bio := none
    following := none
    followers := none
    savedPosts := none
    createdAt := 0 }

def twoUserStore : Store :=
  let m := setFn (setFn emptyStore.users "A" (sampleUserDoc "A")) "B" (sampleUserDoc "B")
  { emptyStore with users := m }

theorem follow_then_unfollow_spec_witness :
    ∃ s₁, followUser twoUserStore "A" "B" = some s₁ ∧
      "B" ∈ followingOf s₁ "A" ∧ "A" ∈ followersOf s₁ "B" ∧
      ∃ s₂, unfollowUser s₁ "A" "B" = some s₂ ∧
        "B" ∉ followingOf s₂ "A" ∧ "A" ∉ followersOf s₂ "B" :=
  follow_then_unfollow_spec twoUserStore "A" "B" (sampleUserDoc "A")
    (sampleUserDoc "B") (by simp [twoUserStore, setFn]) (by simp [twoUserStore, setFn])

/-! ### C7: getConnectedPosts -/

lemma filterMap_getPostById_map_id (s : Store) (ids : List String) :
    ((ids.filterMap (fun pid => getPostById s pid)).map (fun rp => rp.id)) =
      ids.filter (fun pid => (s.posts pid).isSome) := by
  induction ids with
  | nil => rfl
  | cons a rest ih =>
      simp only [getPostById] at ih ⊢
      rw [List.filterMap_cons, List.filter_cons]
      cases ha : s.posts a with
      | none => simpa [ha] using ih
      | some pd => simp [ha, ih]

/-- C7 (amended): when the original post exists, `getConnectedPosts`
returns a list headed by the original, whose ids are exactly the
original's id followed by the ids in `connectedPosts` that resolve
(unresolvable ids are dropped); and the result holds no id twice
provided `connectedPosts` itself has no duplicate and does not contain
the original's id. -/
theorem connected_posts_spec (s : Store) (oid : String) (od : PostDoc)
    (h : s.posts oid = some od)
    (hnd : (od.connectedPosts.getD []).Nodup)
    (hmem : oid ∉ od.connectedPosts.getD []) :
    ∃ res, getConnectedPosts s oid = some res ∧
      res.head? = some { id := oid, doc := od } ∧
      res.map (fun rp => rp.id) =
        oid :: (od.connectedPosts.getD []).filter (fun pid => (s.posts pid).isSome) ∧
      (res.map (fun rp => rp.id)).Nodup := by
  have hres : getConnectedPosts s oid =
      some ({ id := oid, doc := od } ::
        (od.connectedPosts.getD []).filterMap (fun pid => getPostById s pid)) := by
    rw [getConnectedPosts, getPostById, h]
    rfl
  refine ⟨_, hres, rfl, ?_, ?_⟩
  · rw [List.map_cons, filterMap_getPostById_map_id]
  · rw [List.map_cons, filterMap_getPostById_map_id]
    rw [List.nodup_cons]
    constructor
    · intro hin
      exact hmem (List.mem_of_mem_filter hin)
    · exact hnd.filter _

def dupBaseStore : Store :=
  let m := setFn (setFn emptyStore.posts "O" samplePostDoc) "N" samplePostDoc
  { emptyStore with posts := m }

/-- C7 counterexample: connecting the same remake twice appends its id
twice to `connectedPosts`, and `getConnectedPosts` then returns the same
post id twice — the claim that it never contains an id twice fails. -/
theorem connected_posts_can_duplicate :
    ((((connectPostToRecipe dupBaseStore "O" "N").bind
          (fun s2 => connectPostToRecipe s2 "O" "N")).bind
        (fun s3 => getConnectedPosts s3 "O")).map
      (fun res => res.map (fun rp => rp.id))) = some ["O", "N", "N"] ∧
    ¬ (["O", "N", "N"] : List String).Nodup := by
  constructor
  · decide
  · decide

theorem connected_posts_spec_witness :
    ∃ res, getConnectedPosts dupBaseStore "O" = some res ∧
      res.head? = some { id := "O", doc := samplePostDoc } ∧
      res.map (fun rp => rp.id) =
        "O" :: (samplePostDoc.connectedPosts.getD []).filter
          (fun pid => (dupBaseStore.posts pid).isSome) ∧
      (res.map (fun rp => rp.id)).Nodup :=
  connected_posts_spec dupBaseStore "O" samplePostDoc (by decide) (by decide) (by decide)

/-! ### C8: ordered and fallback comment-query paths -/

instance : IsTotal CommentView (fun a b => b.createdAt ≤ a.createdAt) :=
  ⟨fun a b => le_total b.createdAt a.createdAt⟩

instance : IsTrans CommentView (fun a b => b.createdAt ≤ a.createdAt) :=
  ⟨fun _ _ _ hab hbc => le_trans hbc hab⟩

instance : IsAntisymm CommentView (fun a b => b.createdAt < a.createdAt) :=
  ⟨fun _ _ h1 h2 => absurd h1 (not_lt.mpr (le_of_lt h2))⟩

lemma sortCommentsDesc_perm (l : List CommentView) :
    (sortCommentsDesc l).Perm l :=
  List.perm_insertionSort _ l

lemma sortCommentsDesc_sorted (l : List CommentView) :
    (sortCommentsDesc l).Sorted (fun a b => b.createdAt ≤ a.createdAt) :=
  List.sorted_insertionSort _ l

lemma sorted_strict_of_nodup_keys (l : List CommentView)
    (hs : l.Sorted (fun a b => b.createdAt ≤ a.createdAt))
    (hn : (l.map (fun c => c.createdAt)).Nodup) :
    l.Sorted (fun a b => b.createdAt < a.createdAt) := by
  have hpw : l.Pairwise (fun a b => a.createdAt ≠ b.createdAt) :=
    List.pairwise_map.mp hn
  exact hs.imp₂ (fun _ _ hle hne => lt_of_le_of_ne hle (Ne.symm hne)) hpw

/-- C8 (amended): the ordered path and the fallback path of
`getCommentsForPost` apply the identical tail (`processCommentDocs`: map
then stable client sort by `createdAt` descending) to the documents the
backend delivered; when the stored comments have pairwise-distinct
`createdAt` values, any two delivery orders of the same documents produce
the same final list, so the two paths agree. On tied `createdAt` values
the delivery order leaks into the result (see the counterexample). -/
theorem comment_paths_agree_distinct_times
    (docs₁ docs₂ : List (String × CommentDoc)) (hperm : docs₁.Perm docs₂)
    (hnd : (docs₁.map (fun kd => kd.2.createdAt)).Nodup) :
    processCommentDocs docs₁ = processCommentDocs docs₂ := by
  unfold processCommentDocs
  have hv : (docs₁.map toCommentView).Perm (docs₂.map toCommentView) :=
    hperm.map _
  have hp : (sortCommentsDesc (docs₁.map toCommentView)).Perm
      (sortCommentsDesc (docs₂.map toCommentView)) :=
    ((sortCommentsDesc_perm _).trans hv).trans (sortCommentsDesc_perm _).symm
  have hk1 : ((docs₁.map toCommentView).map (fun c => c.createdAt)).Nodup := by
    rw [List.map_map]
    exact hnd
  have hks1 : ((sortCommentsDesc (docs₁.map toCommentView)).map
      (fun c => c.createdAt)).Nodup :=
    (((sortCommentsDesc_perm _).map _).nodup_iff).mpr hk1
  have hks2 : ((sortCommentsDesc (docs₂.map toCommentView)).map
      (fun c => c.createdAt)).Nodup :=
    ((hp.map _).nodup_iff).mp hks1
  exact List.eq_of_perm_of_sorted hp
    (sorted_strict_of_nodup_keys _ (sortCommentsDesc_sorted _) hks1)
    (sorted_strict_of_nodup_keys _ (sortCommentsDesc_sorted _) hks2)

def tieDocA : String × CommentDoc :=
  ("a", { postId := "p", userId := "u", username := "n", userPhotoURL := none,
          text := "t1", createdAt := 5 })

def tieDocB : String × CommentDoc :=
  ("b", { postId := "p", userId := "u", username := "n", userPhotoURL := none,
          text := "t2", createdAt := 5 })

/-- C8 counterexample: with two stored comments sharing one `createdAt`
value, an ordered-path delivery and a fallback delivery of the same two
documents yield different final lists — the stable client sort preserves
whichever delivery order the backend used, so the two paths do not agree
in general. -/
theorem comment_order_paths_differ_on_ties : ¬ orderedFallbackAgree := by
  intro h
  have h2 := h [tieDocA, tieDocB] [tieDocB, tieDocA] (by decide) (by decide)
  exact absurd h2 (by decide)

def earlyDoc : String × CommentDoc :=
  ("a", { postId := "p", userId := "u", username := "n", userPhotoURL := none,
          text := "t1", createdAt := 1 })

def lateDoc : String × CommentDoc :=
  ("b", { postId := "p", userId := "u", username := "n", userPhotoURL := none,
          text := "t2", createdAt := 2 })

theorem comment_paths_agree_distinct_times_witness :
    processCommentDocs [lateDoc, earlyDoc] = processCommentDocs [earlyDoc, lateDoc] :=
  comment_paths_agree_distinct_times [lateDoc, earlyDoc] [earlyDoc, lateDoc]
    (by decide) (by decide)

/-! ### C4: counter non-negativity -/

def negLikesDoc : PostDoc :=
  { userId := "u"
    username := "un"
    title := "t"
    description := ""
    photoURL := none
    photoURLs := some []
    likes := some (-1)
    comments := some 0
    createdAt := 0
    originalRecipeId := none
    isOriginalRecipe := none
    connectedPosts := none }

/-- C4 counterexample: `unlikePost` decrements unconditionally, so the
two-operation sequence `createPost` then `unlikePost` (with no prior
like) drives the post's `likes` counter to `-1` — the claimed
non-negativity over all operation sequences fails. -/
theorem counters_can_go_negative :
    ¬ countersNonNeg (applyOps [Op.create "p" sampleMeta [] 0, Op.unlike "p" "u"]) := by
  intro h
  have h2 := (h "p" negLikesDoc (by decide)).1
  simp [negLikesDoc] at h2

lemma countP_filter_key_add_one_le (k : String)
    (P : String × LikeDoc → Bool) (kd₀ : String × LikeDoc)
    (hk : kd₀.1 = k) (hP : P kd₀ = true) :
    ∀ l : List (String × LikeDoc), kd₀ ∈ l →
      (l.filter (fun kd => kd.1 != k)).countP P + 1 ≤ l.countP P := by
  intro l
  induction l with
  | nil => intro hmem; cases hmem
  | cons x xs ih =>
      intro hmem
      rw [List.filter_cons, List.countP_cons]
      rcases List.mem_cons.mp hmem with heq | hmem2
      · subst heq
        have hxk : (kd₀.1 != k) = false := by simp [hk]
        have hsub := List.Sublist.countP_le P (List.filter_sublist xs (p := fun kd => kd.1 != k))
        simp only [hxk, Bool.false_eq_true, if_false, hP, if_true]
        omega
      · have hih := ih hmem2
        by_cases hx : x.1 = k
        · have hxk : (x.1 != k) = false := by simp [hx]
          simp only [hxk, Bool.false_eq_true, if_false]
          split <;> omega
        · have hxk : (x.1 != k) = true := by simp [hx]
          simp only [hxk, if_true, List.countP_cons]
          split <;> omega

/-- Auxiliary invariant carried through guarded reachability: every
existing post has a non-negative `comments` counter and a `likes`
counter bounded below by the number of like-edge documents recording it. -/
def InvC4 (s : Store) : Prop :=
  ∀ pid d, s.posts pid = some d →
    0 ≤ d.comments.getD 0 ∧ (edgeCount s pid : Int) ≤ d.likes.getD 0

lemma invC4_create (s : Store) (pid : String) (meta : PostMeta)
    (urls : List String) (now : Nat) (hinv : InvC4 s)
    (hedges : ∀ kd ∈ s.likes, kd.2.postId ≠ pid) :
    InvC4 (applyOp s (.create pid meta urls now)) := by
  intro q d hd
  have hlik : (applyOp s (.create pid meta urls now)).likes = s.likes := rfl
  simp only [applyOp, setFn] at hd
  by_cases hq : q = pid
  · subst hq
    rw [if_pos rfl] at hd
    injection hd with hd2
    subst hd2
    refine ⟨by simp [writePost], ?_⟩
    have h0 : edgeCount (applyOp s (.create q meta urls now)) q = 0 := by
      unfold edgeCount
      rw [hlik]
      rw [List.countP_eq_zero]
      intro kd hkd
      simp [hedges kd hkd]
    rw [h0]
    simp [writePost]
  · rw [if_neg hq] at hd
    obtain ⟨hc, hl⟩ := hinv q d hd
    refine ⟨hc, ?_⟩
    have he : edgeCount (applyOp s (.create pid meta urls now)) q = edgeCount s q := rfl
    rw [he]
    exact hl

lemma invC4_like (s : Store) (p u : String) (now : Nat) (hinv : InvC4 s) :
    InvC4 (applyOp s (.like p u now)) := by
  cases hp : s.posts p with
  | none =>
      have hid : applyOp s (.like p u now) = s := by
        simp [applyOp, likePost, hp]
      rw [hid]
      exact hinv
  | some dp =>
      have hposts : (applyOp s (.like p u now)).posts =
          setFn s.posts p { dp with likes := some (dp.likes.getD 0 + 1) } := by
        simp [applyOp, likePost, hp]
      have hlik : (applyOp s (.like p u now)).likes =
          setLike s.likes (likeKey p u) { postId := p, userId := u, createdAt := now } := by
        simp [applyOp, likePost, hp]
      intro q d hd
      rw [hposts] at hd
      unfold setFn at hd
      by_cases hq : q = p
      · subst hq
        rw [if_pos rfl] at hd
        injection hd with hd2
        subst hd2
        refine ⟨by simpa using (hinv q dp hp).1, ?_⟩
        unfold edgeCount
        rw [hlik]
        unfold setLike
        rw [List.countP_append]
        have h1 := List.Sublist.countP_le (fun kd => kd.2.postId == q)
          (List.filter_sublist s.likes (p := fun kd => kd.1 != likeKey q u))
        have h2 := (hinv q dp hp).2
        unfold edgeCount at h2
        have h3 : ([(likeKey q u, ({ postId := q, userId := u, createdAt := now } : LikeDoc))]).countP (fun kd => kd.2.postId == q) = 1 := by
          simp [List.countP_cons]
        rw [h3]
        simp only [Option.getD_some]
        omega
      · rw [if_neg hq] at hd
        obtain ⟨hc, hl⟩ := hinv q d hd
        refine ⟨hc, ?_⟩
        unfold edgeCount at hl ⊢
        rw [hlik]
        unfold setLike
        rw [List.countP_append]
        have h1 := List.Sublist.countP_le (fun kd => kd.2.postId == q)
          (List.filter_sublist s.likes (p := fun kd => kd.1 != likeKey p u))
        have hpq : (p == q) = false := by
          simp
          exact fun hh => hq hh.symm
        have h3 : ([(likeKey p u, ({ postId := p, userId := u, createdAt := now } : LikeDoc))]).countP (fun kd => kd.2.postId == q) = 0 := by
          simp [List.countP_cons, hpq]
        rw [h3]
        omega

lemma invC4_unlike (s : Store) (p u : String) (hinv : InvC4 s)
    (hedge : ∃ d0, lookupLike s.likes (likeKey p u) = some d0 ∧ d0.postId = p) :
    InvC4 (applyOp s (.unlike p u)) := by
  cases hp : s.posts p with
  | none =>
      have hid : applyOp s (.unlike p u) = s := by
        simp [applyOp, unlikePost, hp]
      rw [hid]
      exact hinv
  | some dp =>
      have hposts : (applyOp s (.unlike p u)).posts =
          setFn s.posts p { dp with likes := some (dp.likes.getD 0 - 1) } := by
        simp [applyOp, unlikePost, hp]
      have hlik : (applyOp s (.unlike p u)).likes = delLike s.likes (likeKey p u) := by
        simp [applyOp, unlikePost, hp]
      obtain ⟨d0, hld, hd0p⟩ := hedge
      unfold lookupLike at hld
      obtain ⟨kd0, hfind, hkd0⟩ : ∃ kd0, s.likes.find? (fun kd => kd.1 == likeKey p u) = some kd0 ∧ kd0.2 = d0 := by
        cases hf : s.likes.find? (fun kd => kd.1 == likeKey p u) with
        | none =>
            rw [hf] at hld
            cases hld
        | some kd =>
            rw [hf] at hld
            exact ⟨kd, rfl, Option.some.inj hld⟩
      have hmem : kd0 ∈ s.likes := List.mem_of_find?_eq_some hfind
      have hkey : kd0.1 = likeKey p u := by
        have hpred := List.find?_some hfind
        simpa using hpred
      have hPkd : (fun kd : String × LikeDoc => kd.2.postId == p) kd0 = true := by
        simp [hkd0, hd0p]
      intro q d hd
      rw [hposts] at hd
      unfold setFn at hd
      by_cases hq : q = p
      · subst hq
        rw [if_pos rfl] at hd
        injection hd with hd2
        subst hd2
        refine ⟨by simpa using (hinv q dp hp).1, ?_⟩
        unfold edgeCount
        rw [hlik]
        unfold delLike
        have hcnt := countP_filter_key_add_one_le (likeKey q u)
          (fun kd => kd.2.postId == q) kd0 hkey hPkd s.likes hmem
        have h2 := (hinv q dp hp).2
        unfold edgeCount at h2
        simp only [Option.getD_some]
        omega
      · rw [if_neg hq] at hd
        obtain ⟨hc, hl⟩ := hinv q d hd
        refine ⟨hc, ?_⟩
        unfold edgeCount at hl ⊢
        rw [hlik]
        unfold delLike
        have h1 := List.Sublist.countP_le (fun kd => kd.2.postId == q)
          (List.filter_sublist s.likes (p := fun kd => kd.1 != likeKey p u))
        omega

lemma invC4_comment (s : Store) (cid pid uid un : String) (ph : Option String)
    (tx : String) (now : Nat) (hinv : InvC4 s) :
    InvC4 (applyOp s (.comment cid pid uid un ph tx now)) := by
  cases hp : s.posts pid with
  | none =>
      have hposts : (applyOp s (.comment cid pid uid un ph tx now)).posts = s.posts := by
        simp [applyOp, addComment, hp]
      have hlik : (applyOp s (.comment cid pid uid un ph tx now)).likes = s.likes := by
        simp [applyOp, addComment, hp]
      intro q d hd
      rw [hposts] at hd
      obtain ⟨hc, hl⟩ := hinv q d hd
      refine ⟨hc, ?_⟩
      unfold edgeCount
      rw [hlik]
      exact hl
  | some pd =>
      have hposts : (applyOp s (.comment cid pid uid un ph tx now)).posts =
          setFn s.posts pid { pd with comments := some (pd.comments.getD 0 + 1) } := by
        simp [applyOp, addComment, hp]
      have hlik : (applyOp s (.comment cid pid uid un ph tx now)).likes = s.likes := by
        simp [applyOp, addComment, hp]
      intro q d hd
      rw [hposts] at hd
      unfold setFn at hd
      by_cases hq : q = pid
      · subst hq
        rw [if_pos rfl] at hd
        injection hd with hd2
        subst hd2
        obtain ⟨hc, hl⟩ := hinv q pd hp
        constructor
        · simp only [Option.getD_some]
          omega
        · unfold edgeCount at hl ⊢
          rw [hlik]
          simpa using hl
      · rw [if_neg hq] at hd
        obtain ⟨hc, hl⟩ := hinv q d hd
        refine ⟨hc, ?_⟩
        unfold edgeCount at hl ⊢
        rw [hlik]
        exact hl

lemma greach_invC4 {s : Store} (h : GReach s) : InvC4 s := by
  induction h with
  | init =>
      intro pid d hd
      simp [emptyStore] at hd
  | create hg hne hedges ih => exact invC4_create _ _ _ _ _ ih hedges
  | like hg ih => exact invC4_like _ _ _ _ ih
  | unlike hg hedge ih => exact invC4_unlike _ _ _ ih hedge
  | comment hg ih => exact invC4_comment _ _ _ _ _ _ _ _ ih

/-- Unguarded invariant: every existing post has a non-negative
`comments` counter. Preserved by every operation with no side
conditions: `create` writes `comments = 0`, `like`/`unlike` leave the
field alone, and `addComment` writes `(current or 0) + 1`. -/
def CommentsNonNeg (s : Store) : Prop :=
  ∀ pid d, s.posts pid = some d → 0 ≤ d.comments.getD 0

lemma commentsNonNeg_applyOp {s : Store} (h : CommentsNonNeg s) (op : Op) :
    CommentsNonNeg (applyOp s op) := by
  cases op with
  | create pid meta urls now =>
      intro q d hd
      simp only [applyOp, setFn] at hd
      by_cases hq : q = pid
      · subst hq
        rw [if_pos rfl] at hd
        injection hd with hd2
        subst hd2
        simp [writePost]
      · rw [if_neg hq] at hd
        exact h q d hd
  | like p u now =>
      cases hp : s.posts p with
      | none =>
          have hid : applyOp s (.like p u now) = s := by
            simp [applyOp, likePost, hp]
          rw [hid]
          exact h
      | some dp =>
          have hposts : (applyOp s (.like p u now)).posts =
              setFn s.posts p { dp with likes := some (dp.likes.getD 0 + 1) } := by
            simp [applyOp, likePost, hp]
          intro q d hd
          rw [hposts] at hd
          unfold setFn at hd
          by_cases hq : q = p
          · subst hq
            rw [if_pos rfl] at hd
            injection hd with hd2
            subst hd2
            simpa using h q dp hp
          · rw [if_neg hq] at hd
            exact h q d hd
  | unlike p u =>
      cases hp : s.posts p with
      | none =>
          have hid : applyOp s (.unlike p u) = s := by
            simp [applyOp, unlikePost, hp]
          rw [hid]
          exact h
      | some dp =>
          have hposts : (applyOp s (.unlike p u)).posts =
              setFn s.posts p { dp with likes := some (dp.likes.getD 0 - 1) } := by
            simp [applyOp, unlikePost, hp]
          intro q d hd
          rw [hposts] at hd
          unfold setFn at hd
          by_cases hq : q = p
          · subst hq
            rw [if_pos rfl] at hd
            injection hd with hd2
            subst hd2
            simpa using h q dp hp
          · rw [if_neg hq] at hd
            exact h q d hd
  | comment cid pid uid un ph tx now =>
      cases hp : s.posts pid with
      | none =>
          have hposts : (applyOp s (.comment cid pid uid un ph tx now)).posts = s.posts := by
            simp [applyOp, addComment, hp]
          intro q d hd
          rw [hposts] at hd
          exact h q d hd
      | some pd =>
          have hposts : (applyOp s (.comment cid pid uid un ph tx now)).posts =
              setFn s.posts pid { pd with comments := some (pd.comments.getD 0 + 1) } := by
            simp [applyOp, addComment, hp]
          intro q d hd
          rw [hposts] at hd
          unfold setFn at hd
          by_cases hq : q = pid
          · subst hq
            rw [if_pos rfl] at hd
            injection hd with hd2
            subst hd2
            have hc := h q pd hp
            simp only [Option.getD_some]
            omega
          · rw [if_neg hq] at hd
            exact h q d hd

lemma commentsNonNeg_foldl :
    ∀ (ops : List Op) (s : Store), CommentsNonNeg s →
      CommentsNonNeg (ops.foldl applyOp s) := by
  intro ops
  induction ops with
  | nil =>
      intro s h
      exact h
  | cons op rest ih =>
      intro s h
      exact ih _ (commentsNonNeg_applyOp h op)

/-- C4 (amended): the `comments` counter of every existing post is
non-negative after every sequence of the exported operations, with no
side conditions; and both counters (`likes` included) are non-negative
along every guarded-reachable sequence — `create` with a fresh document
id, and each `unlikePost(P,U)` performed only while the like-edge at key
`P_U` exists and records post `P` (which is what `checkIfUserLikedPost`
establishes when ids contain no underscore). An unguarded `unlikePost`
drives `likes` below zero (see the counterexample). -/
theorem counters_nonneg_amended :
    (∀ (ops : List Op) (pid : String) (d : PostDoc),
        (applyOps ops).posts pid = some d → 0 ≤ d.comments.getD 0) ∧
    ∀ s : Store, GReach s → countersNonNeg s := by
  constructor
  · intro ops pid d hd
    have hempty : CommentsNonNeg emptyStore := by
      intro q d2 hd2
      simp [emptyStore] at hd2
    exact commentsNonNeg_foldl ops emptyStore hempty pid d hd
  · intro s h pid d hd
    obtain ⟨hc, hl⟩ := greach_invC4 h pid d hd
    exact ⟨le_trans (Int.natCast_nonneg _) hl, hc⟩

def commentedDoc : PostDoc :=
  { userId := "u"
    username := "un"
    title := "t"
    description := ""
    photoURL := none
    photoURLs := some []
    likes := some 0
    comments := some 1
    createdAt := 0
    originalRecipeId := none
    isOriginalRecipe := none
    connectedPosts := none }

theorem counters_nonneg_amended_witness :
    0 ≤ commentedDoc.comments.getD 0 ∧
    countersNonNeg (applyOp (applyOp emptyStore (Op.create "p" sampleMeta [] 0))
      (Op.like "p" "u" 1)) :=
  ⟨counters_nonneg_amended.1
      [Op.create "p" sampleMeta [] 0, Op.comment "c" "p" "u" "un" none "t" 2]
      "p" commentedDoc (by decide),
   counters_nonneg_amended.2 _
     (GReach.like (GReach.create GReach.init rfl
       (by intro kd hkd; simp [emptyStore] at hkd)))⟩
